import Mathlib

/-!
A shallow embedding of the declaration-to-interface transformation engine in
`src/array_api/cli/_main.py`, together with theorems settling the frozen
claims about it.

The Python program operates on `ast` nodes.  We embed the fragment of the
Python abstract syntax that the engine consumes and produces: expressions
(`Expr`), statements (`Stmt`), function arguments (`Arguments`), generic
type-parameter nodes (`TypeVarNode`) and constants (`ConstVal`).  Python's
in-place mutation is modelled by explicit value passing: a transformer that
mutates its argument returns the argument's final value alongside its result.
`ast.unparse` is modelled by the `unparse*` functions below; the exact
punctuation of the rendering is immaterial to the engine (it only performs
substring membership tests on the rendered text), and every identifier that
Python's renderer would print is printed here.
-/

/-- Python constant values (`ast.Constant.value`) occurring in the corpus:
strings, integers, booleans, `None` and `Ellipsis`.  Floats are not needed by
any claim and are omitted from the model universe. -/
inductive ConstVal where
  | str (s : String)
  | intV (n : Int)
  | boolV (b : Bool)
  | noneV
  | ellipsisV
deriving DecidableEq, Repr

/-- The expression fragment of the Python `ast` used by the engine:
`Name`, `Constant`, `Call`, `Subscript`, `Tuple` and `Attribute`. -/
inductive Expr where
  | name (id : String)
  | const (v : ConstVal)
  | call (func : Expr) (args : List Expr)
  | subscript (value : Expr) (slice : Expr)
  | tuple (elts : List Expr)
  | attr (value : Expr) (field : String)

/-- One formal parameter (`ast.arg`): a name with an optional annotation. -/
structure Arg where
  arg : String
  anno : Option Expr

/-- The argument list of a function (`ast.arguments`): positional-only
arguments, ordinary arguments and keyword-only arguments. -/
structure Arguments where
  posonlyargs : List Arg
  args : List Arg
  kwonlyargs : List Arg

/-- A generic type-parameter node (`ast.TypeVar` in a `type_params` list):
a name with an optional bound expression. -/
structure TypeVarNode where
  name : String
  bound : Option Expr

/-- The statement fragment of the Python `ast` used by the engine.
`importStmt` stands for both `Import` and `ImportFrom` (the engine treats
them identically); `otherStmt` stands for any unrecognized statement shape. -/
inductive Stmt where
  | importStmt
  | functionDef (name : String) (args : Arguments) (body : List Stmt)
      (decorators : List Expr) (returns : Option Expr) (typeComment : Option String)
  | assign (targets : List Expr) (value : Expr)
  | classDef (name : String) (bases : List Expr) (body : List Stmt)
      (decorators : List Expr) (typeParams : List TypeVarNode)
  | exprStmt (value : Expr)
  | returnStmt (value : Option Expr)
  | passStmt
  | annAssign (target : String) (anno : Expr) (value : Option Expr)
  | otherStmt

/-- `sub ∈ hay` on character lists: `isPref pat l` says `pat` is a prefix. -/
def isPref : List Char → List Char → Bool
  | [], _ => true
  | _ :: _, [] => false
  | a :: as, b :: bs => a == b && isPref as bs

/-- Auxiliary: does `pat` occur as a contiguous sublist of `l`? -/
def containsSubAux (pat : List Char) : List Char → Bool
  | [] => isPref pat []
  | b :: bs => isPref pat (b :: bs) || containsSubAux pat bs

/-- Python's `pat in hay` on strings: substring containment. -/
def containsSub (hay pat : String) : Bool :=
  containsSubAux pat.data hay.data

/-- Python's `str.startswith`. -/
def strStartsWith (s pat : String) : Bool := isPref pat.data s.data

/-- Lexicographic-by-code-point comparison of character lists. -/
def charListLt : List Char → List Char → Bool
  | _, [] => false
  | [], _ :: _ => true
  | a :: as, b :: bs =>
      if a.toNat < b.toNat then true
      else if b.toNat < a.toNat then false
      else charListLt as bs

/-- Python's `<` on strings: lexicographic by code point. -/
def strLt (s t : String) : Bool := charListLt s.data t.data

/-- Python's `str.capitalize`: first character uppercased, the rest
lowercased. -/
def pyCapitalize (s : String) : String :=
  match s.data with
  | [] => ""
  | c :: cs => String.mk (c.toUpper :: cs.map Char.toLower)

/-- `s[0].upper() + s[1:]` as used for submodule names: first character
uppercased, the rest unchanged (never applied to the empty string by the
engine). -/
def upperFirst (s : String) : String :=
  match s.data with
  | [] => ""
  | c :: cs => String.mk (c.toUpper :: cs)

/-- Rendering of a constant, following Python's `ast.unparse`. -/
def unparseConst : ConstVal → String
  | .str s => "'" ++ s ++ "'"
  | .intV n => toString n
  | .boolV b => if b then "True" else "False"
  | .noneV => "None"
  | .ellipsisV => "..."

mutual

/-- Rendering of an expression, following Python's `ast.unparse`.  The exact
punctuation is irrelevant to the engine (which only does substring tests on
the result); every identifier Python would print is printed. -/
def unparseExpr : Expr → String
  | .name id => id
  | .const v => unparseConst v
  | .call f as => unparseExpr f ++ "(" ++ unparseExprList as ++ ")"
  | .subscript v s => unparseExpr v ++ "[" ++ unparseExpr s ++ "]"
  | .tuple es => "(" ++ unparseExprList es ++ ")"
  | .attr v f => unparseExpr v ++ "." ++ f

/-- Comma-separated rendering of a list of expressions. -/
def unparseExprList : List Expr → String
  | [] => ""
  | [e] => unparseExpr e
  | e :: e2 :: es => unparseExpr e ++ ", " ++ unparseExprList (e2 :: es)

end

/-- Rendering of one formal parameter. -/
def unparseArg (a : Arg) : String :=
  a.arg ++ (match a.anno with
    | some e => ": " ++ unparseExpr e
    | none => "")

/-- Rendering of an argument list, following Python's `ast.unparse` on
`ast.arguments` (positional-only args, then `/`, then ordinary args, then
`*`, then keyword-only args). -/
def unparseArguments (a : Arguments) : String :=
  String.intercalate ", "
    ((a.posonlyargs.map unparseArg)
      ++ (if a.posonlyargs.isEmpty then [] else ["/"])
      ++ (a.args.map unparseArg)
      ++ (if a.kwonlyargs.isEmpty then [] else ["*"])
      ++ (a.kwonlyargs.map unparseArg))

/-- Rendering of a type-parameter node inside a generic parameter list. -/
def unparseTypeVarNode (t : TypeVarNode) : String :=
  t.name ++ (match t.bound with
    | some b => ": " ++ unparseExpr b
    | none => "")

mutual

/-- Rendering of a statement, following Python's `ast.unparse`.  Layout is
flattened to one line; every identifier Python would print is printed. -/
def unparseStmt : Stmt → String
  | .importStmt => "import _"
  | .functionDef n a b dec r _ =>
      String.join (dec.map (fun d => "@" ++ unparseExpr d ++ " "))
        ++ "def " ++ n ++ "(" ++ unparseArguments a ++ ")"
        ++ (match r with
            | some e => " -> " ++ unparseExpr e
            | none => "")
        ++ ": " ++ unparseStmtList b
  | .assign ts v =>
      String.join (ts.map (fun t => unparseExpr t ++ " = ")) ++ unparseExpr v
  | .classDef n bs b dec tps =>
      String.join (dec.map (fun d => "@" ++ unparseExpr d ++ " "))
        ++ "class " ++ n
        ++ (if tps.isEmpty then ""
            else "[" ++ String.intercalate ", " (tps.map unparseTypeVarNode) ++ "]")
        ++ "(" ++ unparseExprList bs ++ ")"
        ++ ": " ++ unparseStmtList b
  | .exprStmt v => unparseExpr v
  | .returnStmt v =>
      "return" ++ (match v with
        | some e => " " ++ unparseExpr e
        | none => "")
  | .passStmt => "pass"
  | .annAssign t ann v =>
      t ++ ": " ++ unparseExpr ann
        ++ (match v with
            | some e => " = " ++ unparseExpr e
            | none => "")
  | .otherStmt => ""

/-- Rendering of a statement sequence (separator only; no indentation). -/
def unparseStmtList : List Stmt → String
  | [] => ""
  | [s] => unparseStmt s
  | s :: s2 :: ss => unparseStmt s ++ "; " ++ unparseStmtList (s2 :: ss)

end

/-- `TypeVarInfo` from `_main.py`: a registered type parameter, a name with an
optional bound identifier. -/
structure TypeVarInfo where
  name : String
  bound : Option String
deriving DecidableEq, Repr

/-- The fields of an `ast.FunctionDef` as consumed by the engine. -/
structure FunctionDefData where
  name : String
  args : Arguments
  body : List Stmt
  decorators : List Expr
  returns : Option Expr
  typeComment : Option String

/-- Repackage a function declaration as a statement. -/
def FunctionDefData.toStmt (f : FunctionDefData) : Stmt :=
  Stmt.functionDef f.name f.args f.body f.decorators f.returns f.typeComment

/-- The fields of an `ast.ClassDef` as consumed and produced by the engine. -/
structure ClassDefData where
  name : String
  bases : List Expr
  body : List Stmt
  decorators : List Expr
  typeParams : List TypeVarNode

/-- Repackage a class declaration as a statement. -/
def ClassDefData.toStmt (c : ClassDefData) : Stmt :=
  Stmt.classDef c.name c.bases c.body c.decorators c.typeParams

/-- `ProtocolData` from `_main.py`: a generated Protocol class together with
the type variables it uses. -/
structure ProtocolData where
  stmt : ClassDefData
  typevars_used : List TypeVarInfo

/-- The `ProtocolData.name` property: the Protocol's name subscripted by the
tuple of its used type variables (an empty tuple when none are used). -/
def ProtocolData.nameExpr (p : ProtocolData) : Expr :=
  Expr.subscript (Expr.name p.stmt.name)
    (Expr.tuple (p.typevars_used.map (fun t => Expr.name t.name)))

/-- `ModuleAttributes` from `_main.py`: one exposed name of a namespace with
its type, optional docstring (an arbitrary constant in Python, since the
docstring peek accepts any `ast.Constant`) and used type variables. -/
structure ModuleAttributes where
  name : String
  type : Expr
  docstring : Option ConstVal
  typevars_used : List TypeVarInfo

/-- `ast.get_docstring`: the string constant heading a body, if any.
(Python additionally normalizes whitespace via `inspect.cleandoc`; the
normalization is not modelled and no claim depends on it.) -/
def getDocstring : List Stmt → Option String
  | Stmt.exprStmt (Expr.const (ConstVal.str s)) :: _ => some s
  | _ => none

/-- Turn a registered type variable into an `ast.TypeVar` node
(`ast.TypeVar(name=t.name, bound=Name(t.bound) if t.bound else None)`). -/
def tvNode (t : TypeVarInfo) : TypeVarNode :=
  ⟨t.name, t.bound.map Expr.name⟩

/-- `_function_to_protocol` from `_main.py`.  The Python function first
deep-copies its argument and mutates only the copy; mutation is modelled by
rebinding `stmt`, and the second component of the result is the caller's
declaration as it stands after the call (unchanged, because of the copy). -/
def _function_to_protocol (stmtArg : FunctionDefData) (typevars : List TypeVarInfo) :
    ProtocolData × FunctionDefData :=
  let stmt := stmtArg
  let name := stmt.name
  let docstring := getDocstring stmt.body
  let stmt := { stmt with name := "__call__" }
  let stmt := { stmt with body := [Stmt.exprStmt (Expr.const ConstVal.ellipsisV)] }
  let stmt := { stmt with args :=
    { stmt.args with posonlyargs := ⟨"self", none⟩ :: stmt.args.posonlyargs } }
  let stmt := { stmt with decorators := stmt.decorators ++ [Expr.name "abstractmethod"] }
  let stmt := if containsSub name "norm"
    then { stmt with typeComment := some "ignore[valid-type]" } else stmt
  let argsText := unparseArguments stmt.args ++ (match stmt.returns with
    | some r => unparseExpr r
    | none => "")
  let typevars := typevars.filter (fun t => containsSub argsText t.name)
  let stmtNew : ClassDefData :=
    { name := name
      bases := [Expr.name "Protocol"]
      body := (match docstring with
        | some d => [Stmt.exprStmt (Expr.const (ConstVal.str d))]
        | none => []) ++ [stmt.toStmt]
      decorators := [Expr.name "runtime_checkable"]
      typeParams := typevars.map tvNode }
  (⟨stmtNew, typevars⟩, stmtArg)

/-- Whether a Python statement object has a `value` attribute, and that
attribute's content.  `none` means accessing `.value` raises
`AttributeError`; `some v?` means the attribute exists and holds `v?`
(`ast.Return` and `ast.AnnAssign` may hold `None`). -/
def stmtValueAttr : Stmt → Option (Option Expr)
  | .exprStmt e => some (some e)
  | .assign _ v => some (some v)
  | .returnStmt v => some v
  | .annAssign _ _ v => some v
  | _ => none

/-- The per-member loop body of `_class_to_protocol`: for a method member,
inspect `b.body[-1].value` (raising when the body is empty or the last
statement has no `value` attribute), append a trailing `...` unless the last
statement is already an `Ellipsis` constant expression, and mark `__eq__` and
`__ne__` with the override-suppression type comment.  Non-function members
are left untouched. -/
def fixClassMember : Stmt → Except String Stmt
  | .functionDef n a bd dec r tc =>
    match bd.getLast? with
    | none => .error "IndexError: empty method body"
    | some last =>
      match stmtValueAttr last with
      | none => .error "AttributeError: statement has no value attribute"
      | some v? =>
        let bd' := match v? with
          | some (Expr.const ConstVal.ellipsisV) => bd
          | _ => bd ++ [Stmt.exprStmt (Expr.const ConstVal.ellipsisV)]
        let tc' := if n == "__eq__" || n == "__ne__" then some "ignore[override]" else tc
        .ok (Stmt.functionDef n a bd' dec r tc')
  | s => .ok s

/-- `_class_to_protocol` from `_main.py`.  The Python function mutates its
argument in place; the second component of the result is the caller's
declaration after the call (here: the mutated class, which is also the
Protocol statement).  The type-variable filter runs on the rendering of the
class as it stood on entry, before any mutation. -/
def _class_to_protocol (stmt : ClassDefData) (typevars : List TypeVarInfo) :
    Except String (ProtocolData × ClassDefData) := do
  let unp := unparseStmt stmt.toStmt
  let typevars := typevars.filter (fun t => containsSub unp t.name)
  let newBody ← stmt.body.mapM fixClassMember
  let mutated : ClassDefData :=
    { name := stmt.name
      bases := [Expr.name "Protocol"]
      body := newBody
      decorators := [Expr.name "runtime_checkable"]
      typeParams := typevars.map tvNode }
  .ok (⟨mutated, typevars⟩, mutated)

/-- Stable insertion of a type variable into a name-sorted list (a new
element is placed after all existing elements whose name is not greater). -/
def insertByName (x : TypeVarInfo) : List TypeVarInfo → List TypeVarInfo
  | [] => [x]
  | y :: ys => if strLt x.name y.name then x :: y :: ys else y :: insertByName x ys

/-- Python's stable `sorted(·, key=lambda x: x.name)`. -/
def sortByName (l : List TypeVarInfo) : List TypeVarInfo :=
  l.foldl (fun acc x => insertByName x acc) []

/-- `_attributes_to_protocol` from `_main.py`: one annotated field per
attribute record (followed by a docstring statement when the record carries
one), and a type-parameter list that is the name-sorted union of all records'
used type variables.  (Python forms the union as a `set`, whose iteration
order before sorting is unspecified; `dedup` keeps first occurrences, which
`sorted` then orders by name.) -/
def _attributes_to_protocol (name : String) (attributes : List ModuleAttributes) :
    ProtocolData :=
  let body : List Stmt := attributes.flatMap (fun a =>
    Stmt.annAssign a.name a.type none ::
      (match a.docstring with
        | some d => [Stmt.exprStmt (Expr.const d)]
        | none => []))
  let typevars := sortByName (attributes.flatMap (fun a => a.typevars_used)).dedup
  ProtocolData.mk
    { name := name
      bases := [Expr.name "Protocol"]
      body := body
      decorators := [Expr.name "runtime_checkable"]
      typeParams := typevars.map tvNode }
    typevars

/-- The TypeVar-scanning loop of `generate`: record a `TypeVarInfo` for every
assignment whose value is `TypeVar(<constant>, ...)`, applying the fixed
`{"array": "_array"}` bound-override table.  `value.args[0]` raises
`IndexError` when the call has no arguments.  A non-`Constant` first argument
is silently skipped.  (A non-string constant first argument would be recorded
by Python with a non-string name, which then raises `TypeError` at the first
substring-membership test; no claim depends on that corner and it is modelled
as skipped here.) -/
def typevarHead : Stmt → Except String (List TypeVarInfo)
  | .assign _ (Expr.call (Expr.name fid) cargs) =>
      if fid == "TypeVar" then
        match cargs with
        | [] => .error "IndexError: TypeVar() called with no arguments"
        | a0 :: _ =>
          match a0 with
          | Expr.const (ConstVal.str s) =>
              .ok [⟨s, if s == "array" then some "_array" else none⟩]
          | _ => .ok []
      else .ok []
  | _ => .ok []

/-- The whole TypeVar scan: concatenate the records contributed by each
statement of the type-definition module, in order. -/
def computeTypevars : List Stmt → Except String (List TypeVarInfo)
  | [] => .ok []
  | b :: rest => do
    let head ← typevarHead b
    let tail ← computeTypevars rest
    .ok (head ++ tail)

/-- The per-module scanning loop of `generate` (the Module Aggregator): walk
the module body in order, dispatching on statement kind, producing the
module's attribute records and the Protocol statements emitted to the output
tree, each in encounter order.  The assignment case peeks at the next
statement in the body for a trailing constant used as the attribute's
docstring (a `None` constant is indistinguishable from no docstring). -/
def processBody (submodule : String) (typevars : List TypeVarInfo) :
    List Stmt → Except String (List ModuleAttributes × List Stmt)
  | [] => .ok ([], [])
  | b :: rest =>
    match b with
    | .importStmt => processBody submodule typevars rest
    | .functionDef n a bd dec r tc =>
        if strStartsWith n "_" then processBody submodule typevars rest
        else
          let fd : FunctionDefData := ⟨n, a, bd, dec, r, tc⟩
          let data := (_function_to_protocol fd typevars).1
          let record : ModuleAttributes := ⟨n, data.nameExpr, none, data.typevars_used⟩
          let emitted : List Stmt :=
            if containsSub ((getDocstring bd).getD "") "Alias" then []
            else [data.stmt.toStmt]
          (fun p => (record :: p.1, emitted ++ p.2)) <$> processBody submodule typevars rest
    | .assign targets _ =>
        if submodule == "_types" then processBody submodule typevars rest
        else
          match targets with
          | [] => .error "IndexError: empty assignment target list"
          | t0 :: _ =>
            match t0 with
            | .name tid =>
                if tid == "__all__" then processBody submodule typevars rest
                else
                  let docstring : Option ConstVal :=
                    match rest with
                    | Stmt.exprStmt (Expr.const v) :: _ =>
                        match v with
                        | .noneV => none
                        | v' => some v'
                    | _ => none
                  let record : ModuleAttributes := ⟨tid, Expr.name "float", docstring, []⟩
                  (fun p => (record :: p.1, p.2)) <$> processBody submodule typevars rest
            | _ => processBody submodule typevars rest
    | .classDef n bs bd dec tps => do
        let cd : ClassDefData := ⟨n, bs, bd, dec, tps⟩
        let (data, _) ← _class_to_protocol cd typevars
        (fun p => (p.1, data.stmt.toStmt :: p.2)) <$> processBody submodule typevars rest
    | .exprStmt _ => processBody submodule typevars rest
    | _ => processBody submodule typevars rest

/-- Process every module of the mapping in order, accumulating the
per-submodule attribute lists (a `defaultdict` in Python: a key exists
exactly when at least one record was appended, in first-append order, which
for a mapping with distinct keys is the mapping order) and the concatenated
output statements. -/
def processModules (typevars : List TypeVarInfo) :
    List (String × List Stmt) →
    Except String (List (String × List ModuleAttributes) × List Stmt)
  | [] => .ok ([], [])
  | (sub, body) :: rest => do
    let (attrs, outs) ← processBody sub typevars body
    let (ma, outRest) ← processModules typevars rest
    .ok ((if attrs.isEmpty then ma else (sub, attrs) :: ma), outs ++ outRest)

/-- The canonical display form of a renamed type parameter:
`"T" + name.capitalize()`. -/
def renName (n : String) : String := "T" ++ pyCapitalize n

mutual

/-- The effect of the renaming walk on an expression subtree that is not the
annotation of an `AnnAssign`: every `Name` whose id is a registered
type-parameter name is rewritten to the display form, recursively. -/
def renameExpr (ns : List String) : Expr → Expr
  | .name x => if ns.contains x then .name (renName x) else .name x
  | .const v => .const v
  | .call f as => .call (renameExpr ns f) (renameExprList ns as)
  | .subscript v s => .subscript (renameExpr ns v) (renameExpr ns s)
  | .tuple es => .tuple (renameExprList ns es)
  | .attr v f => .attr (renameExpr ns v) f

/-- Pointwise renaming of a list of expressions. -/
def renameExprList (ns : List String) : List Expr → List Expr
  | [] => []
  | e :: es => renameExpr ns e :: renameExprList ns es

end

/-- Renaming of an `ast.TypeVar` generic-parameter node: its name is
rewritten when registered; its bound is an ordinary child subtree. -/
def renameTypeVarNode (ns : List String) (t : TypeVarNode) : TypeVarNode :=
  ⟨if ns.contains t.name then renName t.name else t.name, t.bound.map (renameExpr ns)⟩

/-- Renaming inside one formal parameter (the parameter name is a plain
string field, never a `Name` node, so only the annotation is affected). -/
def renameArg (ns : List String) (a : Arg) : Arg :=
  ⟨a.arg, a.anno.map (renameExpr ns)⟩

/-- Renaming inside an argument list. -/
def renameArguments (ns : List String) (a : Arguments) : Arguments :=
  ⟨a.posonlyargs.map (renameArg ns), a.args.map (renameArg ns),
    a.kwonlyargs.map (renameArg ns)⟩

/-- The visit of the `target` child of an `AnnAssign` node: a registered
target name overwrites the node's annotation with its display-form `Name`
(the target itself is not renamed).  The `Bool` records whether a
replacement has happened. -/
def annStage1 (ns : List String) (target : String) (ann : Expr) : Expr × Bool :=
  if ns.contains target then (Expr.name (renName target), true) else (ann, false)

/-- The visit of the (re-read) `annotation` child: a bare registered `Name`
annotation is replaced by its display form. -/
def annStage2 (ns : List String) : Expr × Bool → Expr × Bool
  | (Expr.name x, fl) =>
      if ns.contains x then (Expr.name (renName x), true) else (Expr.name x, fl)
  | p => p

/-- The visit of the `value` child: a bare registered `Name` value also
overwrites the node's annotation (and the value itself is left alone). -/
def annStage3 (ns : List String) (value : Option Expr) (p : Expr × Bool) : Expr × Bool :=
  match value with
  | some (.name w) => if ns.contains w then (Expr.name (renName w), true) else p
  | _ => p

/-- The walk's effect on the `value` subtree: a bare `Name` value is never
renamed in place (the `AnnAssign` branch redirects to the annotation);
any other value subtree is renamed as usual. -/
def renameAnnValue (ns : List String) : Option Expr → Option Expr
  | some (.name w) => some (Expr.name w)
  | some e => some (renameExpr ns e)
  | none => none

/-- The effect of the renaming walk on an `AnnAssign` statement.  In the walk,
a `Name` child of an `AnnAssign` node does not get renamed in place: instead
the node's `annotation` field is overwritten with the display-form `Name`.
Children are visited in field order (`target`, `annotation`, `value`), the
`annotation` field being re-read after the `target` visit may have replaced
it; a replaced annotation's original subtree is detached and discarded, and
an unreplaced annotation subtree is renamed as usual. -/
def renameAnnAssign (ns : List String) (target : String) (ann : Expr)
    (value : Option Expr) : Stmt :=
  let s := annStage3 ns value (annStage2 ns (annStage1 ns target ann))
  Stmt.annAssign target (if s.2 then s.1 else renameExpr ns ann) (renameAnnValue ns value)

mutual

/-- The Type-Parameter Renamer pass (`ast.walk` loop of `generate`) as a
structural recursion: identifier references, generic-parameter declarations
and annotations are rewritten to the display form; string fields (function,
class and parameter names) are untouched. -/
def renameStmt (ns : List String) : Stmt → Stmt
  | .importStmt => .importStmt
  | .functionDef n a bd dec r tc =>
      .functionDef n (renameArguments ns a) (renameStmtList ns bd)
        (renameExprList ns dec) (r.map (renameExpr ns)) tc
  | .assign ts v => .assign (renameExprList ns ts) (renameExpr ns v)
  | .classDef n bs bd dec tps =>
      .classDef n (renameExprList ns bs) (renameStmtList ns bd)
        (renameExprList ns dec) (tps.map (renameTypeVarNode ns))
  | .exprStmt v => .exprStmt (renameExpr ns v)
  | .returnStmt v => .returnStmt (v.map (renameExpr ns))
  | .passStmt => .passStmt
  | .annAssign t ann v => renameAnnAssign ns t ann v
  | .otherStmt => .otherStmt

/-- Pointwise renaming of a statement list. -/
def renameStmtList (ns : List String) : List Stmt → List Stmt
  | [] => []
  | s :: ss => renameStmt ns s :: renameStmtList ns ss

end

/-- Mapping lookup (`body_module["_types"]` succeeds iff the key exists). -/
def lookupMod (m : List (String × List Stmt)) (k : String) : Option (List Stmt) :=
  (m.find? (fun p => p.1 == k)).map (fun p => p.2)

/-- `del body_module["__init__"]`: remove the key, raising `KeyError` when it
is absent. -/
def delMod (m : List (String × List Stmt)) (k : String) :
    Except String (List (String × List Stmt)) :=
  if (m.find? (fun p => p.1 == k)).isSome then
    .ok (m.filter (fun p => p.1 != k))
  else .error "KeyError: __init__"

/-- The fixed set of optional submodules. -/
def OPTIONAL_SUBMODULES : List String := ["fft", "linalg"]

/-- The well-known auxiliary type parameters injected into the registry. -/
def injectedTypevars : List TypeVarInfo :=
  ["Capabilities", "DefaultDataTypes", "DataTypes"].map (fun x => TypeVarInfo.mk x none)

/-- `generate` from `_main.py`, up to serialization (writing the rendered
text is an external concern): fetch the type-definition module, discard the
initializer module, build the type-variable registry, scan every module,
compose the optional-submodule namespaces and the top-level `ArrayNamespace`,
and run the renaming pass over the whole output tree. -/
def generate (bodyModule : List (String × List Stmt)) : Except String (List Stmt) := do
  let bodyTypevars ← match lookupMod bodyModule "_types" with
    | some b => Except.ok b
    | none => Except.error "KeyError: _types"
  let bodyModule ← delMod bodyModule "__init__"
  let typevars0 ← computeTypevars bodyTypevars
  let typevars := sortByName (typevars0 ++ injectedTypevars)
  let moduleAttributes ← processModules typevars bodyModule
  let outFns := moduleAttributes.2
  let optPairs := moduleAttributes.1.filter (fun p => OPTIONAL_SUBMODULES.contains p.1)
  let optProtocols := optPairs.map
    (fun p => (p.1, _attributes_to_protocol (upperFirst p.1 ++ "Namespace") p.2))
  let outOpt := optProtocols.map (fun q => q.2.stmt.toStmt)
  let submodules := optProtocols.map (fun q => ModuleAttributes.mk q.1 q.2.nameExpr none [])
  let attributes :=
    (moduleAttributes.1.filter (fun p => !OPTIONAL_SUBMODULES.contains p.1)).flatMap
      (fun p => p.2) ++ submodules
  let outBody := outFns ++ outOpt ++
    [(_attributes_to_protocol "ArrayNamespace" attributes).stmt.toStmt]
  let ns := typevars.map (fun t => t.name)
  .ok (renameStmtList ns outBody)

/-- The rendered text the Function→Interface transformer filters its
type-variable registry on: the transformed parameter list (with the inserted
leading `self`) concatenated with the rendered return annotation (empty when
there is none). -/
def sigTextOf (f : FunctionDefData) : String :=
  unparseArguments ⟨⟨"self", none⟩ :: f.args.posonlyargs, f.args.args, f.args.kwonlyargs⟩
    ++ (match f.returns with
        | some r => unparseExpr r
        | none => "")

/-- The declared generic-parameter names of an interface statement. -/
def stmtTypeParamNames : Stmt → List String
  | .classDef _ _ _ _ tps => tps.map (fun t => t.name)
  | _ => []

/-- The member statements of an interface statement. -/
def stmtMembers : Stmt → List Stmt
  | .classDef _ _ b _ _ => b
  | _ => []

/-- The rendered text of an interface statement's members. -/
def stmtMembersText (s : Stmt) : String := unparseStmtList (stmtMembers s)

/-- The declared name of an interface statement. -/
def stmtClassName : Stmt → Option String
  | .classDef n _ _ _ _ => some n
  | _ => none

/-- The names of the type-annotated field declarations of a member list, in
order. -/
def fieldTargets (body : List Stmt) : List String :=
  body.filterMap (fun s => match s with
    | Stmt.annAssign t _ _ => some t
    | _ => none)

/-- The attribute record the Module Aggregator constructs for a public
function declaration: its name, the generated interface's parameterized name
expression, no docstring, and the interface's used type variables. -/
def functionRecord (f : FunctionDefData) (tvs : List TypeVarInfo) : ModuleAttributes :=
  ⟨f.name, ((_function_to_protocol f tvs).1).nameExpr, none,
    ((_function_to_protocol f tvs).1).typevars_used⟩

/-- C4: for every function declaration and every type-parameter registry, the
Function→Interface transformer's `typevars_used` is exactly those registry
entries whose name occurs as a substring of the rendered transformed
parameter list concatenated with the rendered return annotation, in registry
order (membership by substring, not exact token). -/
theorem function_to_protocol_typevars_exact (f : FunctionDefData) (tvs : List TypeVarInfo) :
    (_function_to_protocol f tvs).1.typevars_used =
      tvs.filter (fun t => containsSub (sigTextOf f) t.name) := by
  simp only [_function_to_protocol, sigTextOf]
  split <;> rfl

/-- C9: the Function→Interface transformer leaves the caller's input
declaration unchanged: every mutation targets the internal deep copy, so the
caller's declaration after the call (the second component of the model's
result) is the input itself. -/
theorem function_to_protocol_frame (f : FunctionDefData) (tvs : List TypeVarInfo) :
    (_function_to_protocol f tvs).2 = f := rfl

theorem mem_insertByName (y x : TypeVarInfo) (l : List TypeVarInfo) :
    y ∈ insertByName x l ↔ y = x ∨ y ∈ l := by
  induction l with
  | nil => simp [insertByName]
  | cons z zs ih =>
    simp only [insertByName]
    split
    · simp
    · simp only [List.mem_cons, ih]
      tauto

theorem mem_sortByName_foldl (y : TypeVarInfo) (l acc : List TypeVarInfo) :
    y ∈ l.foldl (fun acc x => insertByName x acc) acc ↔ y ∈ acc ∨ y ∈ l := by
  induction l generalizing acc with
  | nil => simp
  | cons x xs ih =>
    simp only [List.foldl_cons, ih, mem_insertByName, List.mem_cons]
    tauto

theorem mem_sortByName (y : TypeVarInfo) (l : List TypeVarInfo) :
    y ∈ sortByName l ↔ y ∈ l := by
  simp [sortByName, mem_sortByName_foldl]

/-- C8: the Attribute-list→Interface transformer produces one type-annotated
field per record, each followed by a docstring statement when the record
carries one, in the input record order; and its used type variables are the
union over all records (not filtered per record). -/
theorem attributes_to_protocol_spec (nm : String) (attrs : List ModuleAttributes) :
    (_attributes_to_protocol nm attrs).stmt.body =
      attrs.flatMap (fun a => Stmt.annAssign a.name a.type none ::
        (match a.docstring with
          | some d => [Stmt.exprStmt (Expr.const d)]
          | none => [])) ∧
    ∀ tv : TypeVarInfo,
      tv ∈ (_attributes_to_protocol nm attrs).typevars_used ↔
        ∃ a ∈ attrs, tv ∈ a.typevars_used := by
  refine ⟨rfl, fun tv => ?_⟩
  show tv ∈ sortByName (attrs.flatMap (fun a => a.typevars_used)).dedup ↔ _
  rw [mem_sortByName, List.mem_dedup, List.mem_flatMap]

/-- C3: a public function whose docstring contains the literal marker
`"Alias"` contributes exactly one attribute record to its module's list
(prepended ahead of the rest of the scan) and zero interface declarations to
the output tree. -/
theorem alias_function_record_no_interface (sub : String) (tvs : List TypeVarInfo)
    (f : FunctionDefData) (rest : List Stmt)
    (hpub : strStartsWith f.name "_" = false)
    (halias : containsSub ((getDocstring f.body).getD "") "Alias" = true) :
    processBody sub tvs (f.toStmt :: rest) =
      (fun p => (functionRecord f tvs :: p.1, p.2)) <$> processBody sub tvs rest := by
  obtain ⟨n, a, bd, dec, r, tc⟩ := f
  simp only [FunctionDefData.toStmt] at *
  rw [processBody]
  simp only [hpub] at *
  simp [halias, functionRecord]

/-- C10: the record the Module Aggregator constructs for a public function is
prepended to the module's attribute list, and its declared type is always the
generated interface's name subscripted by the tuple of its used type
variables — the tuple is present even when that set is empty. -/
theorem function_record_type_is_subscript (sub : String) (tvs : List TypeVarInfo)
    (f : FunctionDefData) (rest : List Stmt)
    (hpub : strStartsWith f.name "_" = false) :
    processBody sub tvs (f.toStmt :: rest) =
      (fun p => (functionRecord f tvs :: p.1,
        (if containsSub ((getDocstring f.body).getD "") "Alias" = true then []
         else [((_function_to_protocol f tvs).1.stmt).toStmt]) ++ p.2))
        <$> processBody sub tvs rest
    ∧ (functionRecord f tvs).type =
        Expr.subscript (Expr.name f.name)
          (Expr.tuple (((_function_to_protocol f tvs).1.typevars_used).map
            (fun t => Expr.name t.name))) := by
  constructor
  · obtain ⟨n, a, bd, dec, r, tc⟩ := f
    simp only [FunctionDefData.toStmt] at *
    rw [processBody]
    simp only [hpub]
    split <;> simp_all [functionRecord]
  · rfl

/-- C7: if the input mapping lacks the distinguished type-definition module
`"_types"` or the distinguished initializer module `"__init__"`, the whole
invocation fails with an error rather than producing an output tree. -/
theorem generate_missing_module_fails (m : List (String × List Stmt))
    (h : lookupMod m "_types" = none ∨ (m.find? (fun p => p.1 == "__init__")).isSome = false) :
    ∃ e, generate m = .error e := by
  cases h with
  | inl h1 =>
    refine ⟨"KeyError: _types", ?_⟩
    simp [generate, h1, Bind.bind, Except.bind]
  | inr h2 =>
    cases h1 : lookupMod m "_types" with
    | none =>
      refine ⟨"KeyError: _types", ?_⟩
      simp [generate, h1, Bind.bind, Except.bind]
    | some tb =>
      refine ⟨"KeyError: __init__", ?_⟩
      simp [generate, h1, delMod, h2, Bind.bind, Except.bind]

/-- C7 witness: the empty mapping lacks both distinguished modules and the
invocation fails. -/
theorem generate_missing_module_fails_witness :
    ∃ e, generate [] = .error e :=
  generate_missing_module_fails [] (Or.inl rfl)

theorem function_to_protocol_typeParams (f : FunctionDefData) (tvs : List TypeVarInfo) :
    (_function_to_protocol f tvs).1.stmt.typeParams =
      ((_function_to_protocol f tvs).1.typevars_used).map tvNode := by
  simp only [_function_to_protocol]

/-- Function→Interface closure: a registry entry's name is in the declared
type-parameter list iff it occurs as a substring of the rendered transformed
parameter list concatenated with the rendered return annotation. -/
theorem function_interface_typeParam_closure (f : FunctionDefData)
    (tvs : List TypeVarInfo) (t : TypeVarInfo) (ht : t ∈ tvs) :
    t.name ∈ stmtTypeParamNames ((_function_to_protocol f tvs).1.stmt.toStmt) ↔
      containsSub (sigTextOf f) t.name = true := by
  have h1 : stmtTypeParamNames ((_function_to_protocol f tvs).1.stmt.toStmt) =
      ((_function_to_protocol f tvs).1.typevars_used).map (fun t => t.name) := by
    show ((_function_to_protocol f tvs).1.stmt.typeParams).map (fun t => t.name) = _
    rw [function_to_protocol_typeParams, List.map_map]
    rfl
  rw [h1, function_to_protocol_typevars_exact]
  constructor
  · intro hmem
    obtain ⟨t', ht', heq⟩ := List.mem_map.mp hmem
    have := List.mem_filter.mp ht'
    simpa [heq] using this.2
  · intro hc
    exact List.mem_map.mpr ⟨t, List.mem_filter.mpr ⟨ht, by simpa using hc⟩, rfl⟩

/-- Input for the C2 counterexample: a function whose docstring mentions the
registered name `DataTypes` while its signature does not. -/
def cexF2 : Stmt :=
  Stmt.functionDef "f" ⟨[⟨"x", some (Expr.name "int")⟩], [], []⟩
    [Stmt.exprStmt (Expr.const (ConstVal.str "DataTypes are supported"))]
    [] (some (Expr.name "int")) none

/-- Input mapping for the C2 counterexample. -/
def cexMap2 : List (String × List Stmt) :=
  [("_types", []), ("__init__", []), ("m", [cexF2])]

/-- Input for the class half of the C2 counterexample: a class whose NAME is
the registered `DataTypes` while its members never reference it (the
Class→Interface filter runs on the whole rendered class at entry, so the
class name alone registers the parameter). -/
def cexC2b : Stmt :=
  Stmt.classDef "DataTypes" [] [Stmt.assign [Expr.name "x"] (Expr.const (ConstVal.intV 1))] [] []

/-- Input mapping for the class half of the C2 counterexample. -/
def cexMap2b : List (String × List Stmt) :=
  [("_types", []), ("__init__", []), ("m", [cexC2b])]

/-- C2 counterexample, both directions of the claimed closure on the output
tree.  First conjunct (Function→Interface): interface `f` of `cexMap2` has
the registered name `DataTypes` occurring in its members (the docstring) but
an empty declared type-parameter list — a name in the members is missing from
the list.  Second conjunct (Class→Interface): interface `DataTypes` of
`cexMap2b` declares the parameter `TDatatypes` (the registered `DataTypes`,
matched via the class's own name in the entry rendering and then renamed)
while its members `x = 1` never reference it — a declared parameter absent
from the members.  Third conjunct records that `DataTypes` is indeed a
registered name for these inputs. -/
theorem type_param_closure_counterexample :
    ((generate cexMap2).map (fun out => out.map (fun s =>
        (stmtClassName s, containsSub (stmtMembersText s) "DataTypes", stmtTypeParamNames s))))
      = .ok [(some "f", true, []), (some "ArrayNamespace", false, [])]
    ∧ ((generate cexMap2b).map (fun out => out.map (fun s =>
        (stmtClassName s, stmtTypeParamNames s, containsSub (stmtMembersText s) "TDatatypes",
          containsSub (stmtMembersText s) "DataTypes"))))
      = .ok [(some "DataTypes", ["TDatatypes"], false, false),
             (some "ArrayNamespace", [], false, false)]
    ∧ ((computeTypevars []).map (fun tv0 =>
        (sortByName (tv0 ++ injectedTypevars)).map (fun t => t.name)))
      = .ok ["Capabilities", "DataTypes", "DefaultDataTypes"] :=
  ⟨rfl, rfl, rfl⟩

/-- Is an `Except` a success? -/
def isOkE {ε α : Type} : Except ε α → Bool
  | .ok _ => true
  | .error _ => false

/-- Side condition under which the TypeVar scan cannot raise on a statement:
a `TypeVar(...)` constructor call must have at least one argument, and a
`Constant` first argument must be a string (Python records a non-string
constant name, which then raises `TypeError` at the first membership test —
see `typevarHead`'s model comment). -/
def typevarCallOk : Stmt → Bool
  | .assign _ (Expr.call (Expr.name fid) cargs) =>
      if fid == "TypeVar" then
        match cargs with
        | [] => false
        | a0 :: _ =>
          match a0 with
          | Expr.const (ConstVal.str _) => true
          | Expr.const _ => false
          | _ => true
      else true
  | _ => true

/-- Side condition under which `_class_to_protocol` cannot raise on a class
member: a method's body must be nonempty and its final statement must have a
`value` attribute. -/
def classMemberOk : Stmt → Bool
  | .functionDef _ _ bd _ _ _ =>
      match bd.getLast? with
      | none => false
      | some last => (stmtValueAttr last).isSome
  | _ => true

/-- Side condition under which the Module Aggregator cannot raise on a
statement: an assignment outside the type-definition module must have at
least one target, and every member of a class must satisfy
`classMemberOk`. -/
def stmtProcessOk (submodule : String) : Stmt → Bool
  | .assign targets _ => submodule == "_types" || !targets.isEmpty
  | .classDef _ _ bd _ _ => bd.all classMemberOk
  | _ => true

theorem typevarHead_ok (b : Stmt) (h : typevarCallOk b = true) :
    ∃ l, typevarHead b = .ok l := by
  cases b with
  | assign targets v =>
    cases v with
    | name x => exact ⟨_, rfl⟩
    | const x => exact ⟨_, rfl⟩
    | subscript x y => exact ⟨_, rfl⟩
    | tuple x => exact ⟨_, rfl⟩
    | attr x y => exact ⟨_, rfl⟩
    | call f cargs =>
      cases f with
      | const x => exact ⟨_, rfl⟩
      | call x y => exact ⟨_, rfl⟩
      | subscript x y => exact ⟨_, rfl⟩
      | tuple x => exact ⟨_, rfl⟩
      | attr x y => exact ⟨_, rfl⟩
      | name fid =>
        by_cases hf : (fid == "TypeVar") = true
        · cases cargs with
          | nil => simp [typevarCallOk, hf] at h
          | cons a0 tl =>
            cases a0 with
            | name x => exact ⟨[], by simp [typevarHead, hf]⟩
            | call x y => exact ⟨[], by simp [typevarHead, hf]⟩
            | subscript x y => exact ⟨[], by simp [typevarHead, hf]⟩
            | tuple x => exact ⟨[], by simp [typevarHead, hf]⟩
            | attr x y => exact ⟨[], by simp [typevarHead, hf]⟩
            | const cv =>
              cases cv with
              | str ss =>
                  exact ⟨[⟨ss, if ss == "array" then some "_array" else none⟩],
                    by simp [typevarHead, hf]⟩
              | intV nn => simp [typevarCallOk, hf] at h
              | boolV bb => simp [typevarCallOk, hf] at h
              | noneV => simp [typevarCallOk, hf] at h
              | ellipsisV => simp [typevarCallOk, hf] at h
        · exact ⟨[], by simp [typevarHead, hf]⟩
  | importStmt => exact ⟨_, rfl⟩
  | functionDef n a bd dec r tc => exact ⟨_, rfl⟩
  | classDef n bs bd dec tps => exact ⟨_, rfl⟩
  | exprStmt v => exact ⟨_, rfl⟩
  | returnStmt v => exact ⟨_, rfl⟩
  | passStmt => exact ⟨_, rfl⟩
  | annAssign t ann v => exact ⟨_, rfl⟩
  | otherStmt => exact ⟨_, rfl⟩

theorem computeTypevars_ok (tb : List Stmt) (h : tb.all typevarCallOk = true) :
    ∃ l, computeTypevars tb = .ok l := by
  induction tb with
  | nil => exact ⟨[], rfl⟩
  | cons b rest ih =>
    simp only [List.all_cons, Bool.and_eq_true] at h
    obtain ⟨lh, hh⟩ := typevarHead_ok b h.1
    obtain ⟨lt, ht⟩ := ih h.2
    refine ⟨lh ++ lt, ?_⟩
    rw [computeTypevars, hh, ht]
    rfl

theorem fixClassMember_ok (s : Stmt) (h : classMemberOk s = true) :
    ∃ s', fixClassMember s = .ok s' := by
  cases s with
  | functionDef n a bd dec r tc =>
    simp only [classMemberOk] at h
    cases hl : bd.getLast? with
    | none => simp [hl] at h
    | some last =>
      simp only [hl] at h
      cases hv : stmtValueAttr last with
      | none => simp [hv] at h
      | some v? =>
        cases v? with
        | none =>
            exact ⟨Stmt.functionDef n a (bd ++ [Stmt.exprStmt (Expr.const ConstVal.ellipsisV)]) dec r
                (if n == "__eq__" || n == "__ne__" then some "ignore[override]" else tc), by simp only [fixClassMember, hl, hv]⟩
        | some e =>
          cases e with
          | name x => exact ⟨Stmt.functionDef n a (bd ++ [Stmt.exprStmt (Expr.const ConstVal.ellipsisV)]) dec r
                (if n == "__eq__" || n == "__ne__" then some "ignore[override]" else tc), by simp only [fixClassMember, hl, hv]⟩
          | call x y => exact ⟨Stmt.functionDef n a (bd ++ [Stmt.exprStmt (Expr.const ConstVal.ellipsisV)]) dec r
                (if n == "__eq__" || n == "__ne__" then some "ignore[override]" else tc), by simp only [fixClassMember, hl, hv]⟩
          | subscript x y => exact ⟨Stmt.functionDef n a (bd ++ [Stmt.exprStmt (Expr.const ConstVal.ellipsisV)]) dec r
                (if n == "__eq__" || n == "__ne__" then some "ignore[override]" else tc), by simp only [fixClassMember, hl, hv]⟩
          | tuple x => exact ⟨Stmt.functionDef n a (bd ++ [Stmt.exprStmt (Expr.const ConstVal.ellipsisV)]) dec r
                (if n == "__eq__" || n == "__ne__" then some "ignore[override]" else tc), by simp only [fixClassMember, hl, hv]⟩
          | attr x y => exact ⟨Stmt.functionDef n a (bd ++ [Stmt.exprStmt (Expr.const ConstVal.ellipsisV)]) dec r
                (if n == "__eq__" || n == "__ne__" then some "ignore[override]" else tc), by simp only [fixClassMember, hl, hv]⟩
          | const cv =>
            cases cv with
            | ellipsisV => exact ⟨Stmt.functionDef n a bd dec r
                (if n == "__eq__" || n == "__ne__" then some "ignore[override]" else tc), by simp only [fixClassMember, hl, hv]⟩
            | str ss => exact ⟨Stmt.functionDef n a (bd ++ [Stmt.exprStmt (Expr.const ConstVal.ellipsisV)]) dec r
                (if n == "__eq__" || n == "__ne__" then some "ignore[override]" else tc), by simp only [fixClassMember, hl, hv]⟩
            | intV nn => exact ⟨Stmt.functionDef n a (bd ++ [Stmt.exprStmt (Expr.const ConstVal.ellipsisV)]) dec r
                (if n == "__eq__" || n == "__ne__" then some "ignore[override]" else tc), by simp only [fixClassMember, hl, hv]⟩
            | boolV bb => exact ⟨Stmt.functionDef n a (bd ++ [Stmt.exprStmt (Expr.const ConstVal.ellipsisV)]) dec r
                (if n == "__eq__" || n == "__ne__" then some "ignore[override]" else tc), by simp only [fixClassMember, hl, hv]⟩
            | noneV => exact ⟨Stmt.functionDef n a (bd ++ [Stmt.exprStmt (Expr.const ConstVal.ellipsisV)]) dec r
                (if n == "__eq__" || n == "__ne__" then some "ignore[override]" else tc), by simp only [fixClassMember, hl, hv]⟩
  | importStmt => exact ⟨_, rfl⟩
  | assign x y => exact ⟨_, rfl⟩
  | classDef n bs bd dec tps => exact ⟨_, rfl⟩
  | exprStmt v => exact ⟨_, rfl⟩
  | returnStmt v => exact ⟨_, rfl⟩
  | passStmt => exact ⟨_, rfl⟩
  | annAssign t ann v => exact ⟨_, rfl⟩
  | otherStmt => exact ⟨_, rfl⟩

theorem mapM_fixClassMember_ok (bd : List Stmt) (h : bd.all classMemberOk = true) :
    ∃ l, bd.mapM fixClassMember = .ok l := by
  induction bd with
  | nil => exact ⟨[], rfl⟩
  | cons b rest ih =>
    simp only [List.all_cons, Bool.and_eq_true] at h
    obtain ⟨s', hs⟩ := fixClassMember_ok b h.1
    obtain ⟨l, hl⟩ := ih h.2
    refine ⟨s' :: l, ?_⟩
    rw [List.mapM_cons, hs, hl]
    rfl

theorem class_to_protocol_ok (cd : ClassDefData) (tvs : List TypeVarInfo)
    (h : cd.body.all classMemberOk = true) :
    ∃ r, _class_to_protocol cd tvs = .ok r := by
  obtain ⟨l, hl⟩ := mapM_fixClassMember_ok cd.body h
  exact ⟨_, by rw [_class_to_protocol, hl]; rfl⟩

theorem processBody_ok (sub : String) (tvs : List TypeVarInfo) (body : List Stmt)
    (h : body.all (stmtProcessOk sub) = true) :
    ∃ r, processBody sub tvs body = .ok r := by
  induction body with
  | nil => exact ⟨([], []), rfl⟩
  | cons b rest ih =>
    simp only [List.all_cons, Bool.and_eq_true] at h
    obtain ⟨r, hr⟩ := ih h.2
    have hb := h.1
    cases b with
    | importStmt => exact ⟨r, by simp only [processBody]; exact hr⟩
    | functionDef n a bd dec rr tc =>
      cases hp : strStartsWith n "_" with
      | true => exact ⟨r, by simp only [processBody, hp, if_true]; exact hr⟩
      | false =>
        exact ⟨_, by
          simp only [processBody, hp, Bool.false_eq_true, if_false, hr, Functor.map,
            Except.map]
          rfl⟩
    | assign targets v =>
      cases hsub : sub == "_types" with
      | true => exact ⟨r, by simp only [processBody, hsub, if_true]; exact hr⟩
      | false =>
        simp only [stmtProcessOk, hsub, Bool.false_or] at hb
        cases targets with
        | nil => simp at hb
        | cons t0 ts =>
          cases t0 with
          | name tid =>
            cases hall : tid == "__all__" with
            | true =>
              exact ⟨r, by
                simp only [processBody, hsub, hall, Bool.false_eq_true, if_false, if_true]
                exact hr⟩
            | false =>
              exact ⟨_, by
                simp only [processBody, hsub, hall, Bool.false_eq_true, if_false, hr,
                  Functor.map, Except.map]
                rfl⟩
          | const x =>
            exact ⟨r, by simp only [processBody, hsub, Bool.false_eq_true, if_false]; exact hr⟩
          | call x y =>
            exact ⟨r, by simp only [processBody, hsub, Bool.false_eq_true, if_false]; exact hr⟩
          | subscript x y =>
            exact ⟨r, by simp only [processBody, hsub, Bool.false_eq_true, if_false]; exact hr⟩
          | tuple x =>
            exact ⟨r, by simp only [processBody, hsub, Bool.false_eq_true, if_false]; exact hr⟩
          | attr x y =>
            exact ⟨r, by simp only [processBody, hsub, Bool.false_eq_true, if_false]; exact hr⟩
    | classDef n bs bd dec tps =>
      simp only [stmtProcessOk] at hb
      obtain ⟨pr, hpr⟩ := class_to_protocol_ok ⟨n, bs, bd, dec, tps⟩ tvs hb
      obtain ⟨pdata, pcd⟩ := pr
      exact ⟨_, by
        simp only [processBody, hpr, hr, Bind.bind, Except.bind, Functor.map, Except.map]
        rfl⟩
    | exprStmt v => exact ⟨r, by simp only [processBody]; exact hr⟩
    | returnStmt v => exact ⟨r, by simp only [processBody]; exact hr⟩
    | passStmt => exact ⟨r, by simp only [processBody]; exact hr⟩
    | annAssign t ann v => exact ⟨r, by simp only [processBody]; exact hr⟩
    | otherStmt => exact ⟨r, by simp only [processBody]; exact hr⟩

theorem processModules_ok (tvs : List TypeVarInfo) (mods : List (String × List Stmt))
    (h : mods.all (fun p => p.2.all (stmtProcessOk p.1)) = true) :
    ∃ r, processModules tvs mods = .ok r := by
  induction mods with
  | nil => exact ⟨([], []), rfl⟩
  | cons p rest ih =>
    obtain ⟨sub, bd⟩ := p
    simp only [List.all_cons, Bool.and_eq_true] at h
    obtain ⟨⟨a1, o1⟩, hr1⟩ := processBody_ok sub tvs bd h.1
    obtain ⟨⟨a2, o2⟩, hr2⟩ := ih h.2
    exact ⟨_, by
      simp only [processModules, hr1, hr2, Bind.bind, Except.bind]
      rfl⟩

/-- C5 (amended): processing never hard-fails provided the two distinguished
modules are present, every `TypeVar` constructor call in the type-definition
module has a string-literal first argument, every assignment outside the
type-definition module has at least one target, and every class method body
is nonempty and ends in a statement carrying a `value` attribute.  (The
original claim's unconditional "never raises" fails — see the
counterexample: `TypeVar()` with no arguments raises `IndexError`, and a
class method ending in `pass` raises `AttributeError`.) -/
theorem generate_no_declaration_failure (m : List (String × List Stmt)) (tb : List Stmt)
    (h1 : lookupMod m "_types" = some tb)
    (h2 : (m.find? (fun p => p.1 == "__init__")).isSome = true)
    (h3 : tb.all typevarCallOk = true)
    (h4 : m.all (fun p => p.2.all (stmtProcessOk p.1)) = true) :
    ∃ out, generate m = .ok out := by
  obtain ⟨tvl, htv⟩ := computeTypevars_ok tb h3
  have h4' : ((m.filter (fun p => p.1 != "__init__")).all
      (fun p => p.2.all (stmtProcessOk p.1))) = true := by
    rw [List.all_eq_true] at h4 ⊢
    intro p hp
    exact h4 p (List.mem_of_mem_filter hp)
  obtain ⟨⟨ma, outs⟩, hpm⟩ :=
    processModules_ok (sortByName (tvl ++ injectedTypevars)) _ h4'
  exact ⟨_, by
    simp only [generate, h1, delMod, h2, if_true, htv, hpm, Bind.bind, Except.bind]
    rfl⟩

/-- Input for the first half of the C5 counterexample: a `TypeVar()` call
with no arguments in the type-definition module. -/
def cexMap5 : List (String × List Stmt) :=
  [("_types", [Stmt.assign [Expr.name "x"] (Expr.call (Expr.name "TypeVar") [])]),
   ("__init__", [])]

/-- Input for the second half of the C5 counterexample: a class whose method
body ends in `pass` (a statement with no `value` attribute). -/
def cexMap5b : List (String × List Stmt) :=
  [("_types", []), ("__init__", []),
   ("m", [Stmt.classDef "C" [Expr.name "Base"]
      [Stmt.functionDef "me" ⟨[], [⟨"self", none⟩], []⟩ [Stmt.passStmt] [] none none]
      [] []])]

/-- C5 counterexample: a malformed `TypeVar` constructor call (no arguments)
aborts the pass with `IndexError`, and a class declaration whose method body
ends in `pass` aborts it with `AttributeError` — contradicting the claim
that no such declaration causes a hard failure. -/
theorem no_hard_failure_counterexample :
    generate cexMap5 = .error "IndexError: TypeVar() called with no arguments" ∧
    generate cexMap5b = .error "AttributeError: statement has no value attribute" :=
  ⟨rfl, rfl⟩

/-- A well-formed input mapping exercising every declaration kind. -/
def exOkMap : List (String × List Stmt) :=
  [("_types",
    [Stmt.assign [Expr.name "T"] (Expr.call (Expr.name "TypeVar") [Expr.const (ConstVal.str "T")])]),
   ("__init__", []),
   ("m",
    [Stmt.importStmt,
     Stmt.classDef "C" [Expr.name "Base"]
       [Stmt.functionDef "me" ⟨[], [⟨"self", none⟩], []⟩
         [Stmt.exprStmt (Expr.const ConstVal.ellipsisV)] [] none none]
       [] [],
     Stmt.assign [Expr.name "pi"] (Expr.const (ConstVal.intV 3)),
     Stmt.exprStmt (Expr.const (ConstVal.str "module docstring")),
     Stmt.functionDef "f" ⟨[⟨"x", some (Expr.name "T")⟩], [], []⟩
       [Stmt.returnStmt (some (Expr.name "x"))] [] (some (Expr.name "T")) none])]

/-- C5 amended witness: on `exOkMap` every side condition holds and the
engine succeeds. -/
theorem generate_no_declaration_failure_witness :
    ∃ out, generate exOkMap = .ok out :=
  generate_no_declaration_failure exOkMap
    [Stmt.assign [Expr.name "T"] (Expr.call (Expr.name "TypeVar") [Expr.const (ConstVal.str "T")])]
    rfl rfl rfl rfl

/-- A public function whose docstring carries the alias marker. -/
def exAliasF : FunctionDefData :=
  ⟨"fon", ⟨[⟨"x", none⟩], [], []⟩,
    [Stmt.exprStmt (Expr.const (ConstVal.str "Alias of bar"))], [], none, none⟩

/-- C3 witness: processing a module consisting of the single alias function
`exAliasF` records exactly one attribute and emits no interface. -/
theorem alias_function_record_no_interface_witness :
    strStartsWith exAliasF.name "_" = false ∧
    containsSub ((getDocstring exAliasF.body).getD "") "Alias" = true ∧
    processBody "m" [] (exAliasF.toStmt :: []) =
      (fun p => (functionRecord exAliasF [] :: p.1, p.2)) <$> processBody "m" [] [] :=
  ⟨rfl, rfl, alias_function_record_no_interface "m" [] exAliasF [] rfl rfl⟩

/-- A public function using no registered type parameters. -/
def exPlainF : FunctionDefData :=
  ⟨"f10", ⟨[⟨"x", none⟩], [], []⟩, [Stmt.passStmt], [], none, none⟩

/-- C10 witness: for `exPlainF` with an empty registry the recorded type is
the interface name subscripted by the empty tuple, not the bare name. -/
theorem function_record_type_is_subscript_witness :
    strStartsWith exPlainF.name "_" = false ∧
    (functionRecord exPlainF []).type = Expr.subscript (Expr.name "f10") (Expr.tuple []) :=
  ⟨rfl,
    ((function_record_type_is_subscript "m" [] exPlainF [] rfl).2).trans (by rfl)⟩

theorem contains_renName_false (ns : List String)
    (hns : ns.all (fun n => !(ns.contains (renName n))) = true)
    (x : String) (hx : ns.contains x = true) :
    ns.contains (renName x) = false := by
  have hmem : x ∈ ns := List.mem_of_elem_eq_true hx
  have := List.all_eq_true.mp hns x hmem
  simpa using this

mutual

theorem renameExpr_idem (ns : List String)
    (hns : ns.all (fun n => !(ns.contains (renName n))) = true) :
    (e : Expr) → renameExpr ns (renameExpr ns e) = renameExpr ns e
  | .name x => by
      cases hx : ns.contains x with
      | false =>
        have hm : x ∉ ns := by simpa using hx
        simp [renameExpr, hm]
      | true =>
        have hm : x ∈ ns := by simpa using hx
        have hfresh : renName x ∉ ns := by
          simpa using contains_renName_false ns hns x hx
        simp [renameExpr, hm, hfresh]
  | .const v => rfl
  | .call f as => by
      simp only [renameExpr]
      rw [renameExpr_idem ns hns f, renameExprList_idem ns hns as]
  | .subscript a b => by
      simp only [renameExpr]
      rw [renameExpr_idem ns hns a, renameExpr_idem ns hns b]
  | .tuple es => by
      simp only [renameExpr]
      rw [renameExprList_idem ns hns es]
  | .attr a fld => by
      simp only [renameExpr]
      rw [renameExpr_idem ns hns a]

theorem renameExprList_idem (ns : List String)
    (hns : ns.all (fun n => !(ns.contains (renName n))) = true) :
    (es : List Expr) → renameExprList ns (renameExprList ns es) = renameExprList ns es
  | [] => rfl
  | e :: es => by
      simp only [renameExprList]
      rw [renameExpr_idem ns hns e, renameExprList_idem ns hns es]

end

theorem renameAnnAssign_idem (ns : List String)
    (hns : ns.all (fun n => !(ns.contains (renName n))) = true)
    (t : String) (ann : Expr) (v : Option Expr) :
    renameStmt ns (renameAnnAssign ns t ann v) = renameAnnAssign ns t ann v := by
  have EI := renameExpr_idem ns hns
  have ELI := renameExprList_idem ns hns
  cases ht : ns.contains t with
  | true =>
    have hmt : t ∈ ns := by simpa using ht
    have hft : renName t ∉ ns := by simpa using contains_renName_false ns hns t ht
    rcases v with _ | e
    · simp [renameAnnAssign, annStage1, annStage2, annStage3, renameAnnValue, renameStmt, renameExpr, renameExprList, EI, ELI, hmt, hft]
    · cases e with
      | name w =>
        cases hw : ns.contains w with
        | true =>
          have hmw : w ∈ ns := by simpa using hw
          have hfw : renName w ∉ ns := by
            simpa using contains_renName_false ns hns w hw
          simp [renameAnnAssign, annStage1, annStage2, annStage3, renameAnnValue, renameStmt, renameExpr, renameExprList, EI, ELI, hmt, hft, hmw, hfw]
        | false =>
          have hmw : w ∉ ns := by simpa using hw
          simp [renameAnnAssign, annStage1, annStage2, annStage3, renameAnnValue, renameStmt, renameExpr, renameExprList, EI, ELI, hmt, hft, hmw]
      | const cv2 => simp [renameAnnAssign, annStage1, annStage2, annStage3, renameAnnValue, renameStmt, renameExpr, renameExprList, EI, ELI, hmt, hft]
      | call f2 as2 => simp [renameAnnAssign, annStage1, annStage2, annStage3, renameAnnValue, renameStmt, renameExpr, renameExprList, EI, ELI, hmt, hft]
      | subscript a2 b2 => simp [renameAnnAssign, annStage1, annStage2, annStage3, renameAnnValue, renameStmt, renameExpr, renameExprList, EI, ELI, hmt, hft]
      | tuple es2 => simp [renameAnnAssign, annStage1, annStage2, annStage3, renameAnnValue, renameStmt, renameExpr, renameExprList, EI, ELI, hmt, hft]
      | attr a2 fld2 => simp [renameAnnAssign, annStage1, annStage2, annStage3, renameAnnValue, renameStmt, renameExpr, renameExprList, EI, ELI, hmt, hft]
  | false =>
    have hmt : t ∉ ns := by simpa using ht
    cases ann with
    | name x =>
      cases hx : ns.contains x with
      | true =>
        have hmx : x ∈ ns := by simpa using hx
        have hfx : renName x ∉ ns := by simpa using contains_renName_false ns hns x hx
        rcases v with _ | e
        · simp [renameAnnAssign, annStage1, annStage2, annStage3, renameAnnValue, renameStmt, renameExpr, renameExprList, EI, ELI, hmt, hmx, hfx]
        · cases e with
          | name w =>
            cases hw : ns.contains w with
            | true =>
              have hmw : w ∈ ns := by simpa using hw
              have hfw : renName w ∉ ns := by
                simpa using contains_renName_false ns hns w hw
              simp [renameAnnAssign, annStage1, annStage2, annStage3, renameAnnValue, renameStmt, renameExpr, renameExprList, EI, ELI, hmt, hmx, hfx, hmw, hfw]
            | false =>
              have hmw : w ∉ ns := by simpa using hw
              simp [renameAnnAssign, annStage1, annStage2, annStage3, renameAnnValue, renameStmt, renameExpr, renameExprList, EI, ELI, hmt, hmx, hfx, hmw]
          | const cv2 => simp [renameAnnAssign, annStage1, annStage2, annStage3, renameAnnValue, renameStmt, renameExpr, renameExprList, EI, ELI, hmt, hmx, hfx]
          | call f2 as2 => simp [renameAnnAssign, annStage1, annStage2, annStage3, renameAnnValue, renameStmt, renameExpr, renameExprList, EI, ELI, hmt, hmx, hfx]
          | subscript a2 b2 => simp [renameAnnAssign, annStage1, annStage2, annStage3, renameAnnValue, renameStmt, renameExpr, renameExprList, EI, ELI, hmt, hmx, hfx]
          | tuple es2 => simp [renameAnnAssign, annStage1, annStage2, annStage3, renameAnnValue, renameStmt, renameExpr, renameExprList, EI, ELI, hmt, hmx, hfx]
          | attr a2 fld2 => simp [renameAnnAssign, annStage1, annStage2, annStage3, renameAnnValue, renameStmt, renameExpr, renameExprList, EI, ELI, hmt, hmx, hfx]
      | false =>
        have hmx : x ∉ ns := by simpa using hx
        rcases v with _ | e
        · simp [renameAnnAssign, annStage1, annStage2, annStage3, renameAnnValue, renameStmt, renameExpr, renameExprList, EI, ELI, hmt, hmx]
        · cases e with
          | name w =>
            cases hw : ns.contains w with
            | true =>
              have hmw : w ∈ ns := by simpa using hw
              have hfw : renName w ∉ ns := by
                simpa using contains_renName_false ns hns w hw
              simp [renameAnnAssign, annStage1, annStage2, annStage3, renameAnnValue, renameStmt, renameExpr, renameExprList, EI, ELI, hmt, hmx, hmw, hfw]
            | false =>
              have hmw : w ∉ ns := by simpa using hw
              simp [renameAnnAssign, annStage1, annStage2, annStage3, renameAnnValue, renameStmt, renameExpr, renameExprList, EI, ELI, hmt, hmx, hmw]
          | const cv2 => simp [renameAnnAssign, annStage1, annStage2, annStage3, renameAnnValue, renameStmt, renameExpr, renameExprList, EI, ELI, hmt, hmx]
          | call f2 as2 => simp [renameAnnAssign, annStage1, annStage2, annStage3, renameAnnValue, renameStmt, renameExpr, renameExprList, EI, ELI, hmt, hmx]
          | subscript a2 b2 => simp [renameAnnAssign, annStage1, annStage2, annStage3, renameAnnValue, renameStmt, renameExpr, renameExprList, EI, ELI, hmt, hmx]
          | tuple es2 => simp [renameAnnAssign, annStage1, annStage2, annStage3, renameAnnValue, renameStmt, renameExpr, renameExprList, EI, ELI, hmt, hmx]
          | attr a2 fld2 => simp [renameAnnAssign, annStage1, annStage2, annStage3, renameAnnValue, renameStmt, renameExpr, renameExprList, EI, ELI, hmt, hmx]
    | const cv =>
      rcases v with _ | e
      · simp [renameAnnAssign, annStage1, annStage2, annStage3, renameAnnValue, renameStmt, renameExpr, renameExprList, EI, ELI, hmt]
      · cases e with
        | name w =>
          cases hw : ns.contains w with
          | true =>
            have hmw : w ∈ ns := by simpa using hw
            have hfw : renName w ∉ ns := by
              simpa using contains_renName_false ns hns w hw
            simp [renameAnnAssign, annStage1, annStage2, annStage3, renameAnnValue, renameStmt, renameExpr, renameExprList, EI, ELI, hmt, hmw, hfw]
          | false =>
            have hmw : w ∉ ns := by simpa using hw
            simp [renameAnnAssign, annStage1, annStage2, annStage3, renameAnnValue, renameStmt, renameExpr, renameExprList, EI, ELI, hmt, hmw]
        | const cv2 => simp [renameAnnAssign, annStage1, annStage2, annStage3, renameAnnValue, renameStmt, renameExpr, renameExprList, EI, ELI, hmt]
        | call f2 as2 => simp [renameAnnAssign, annStage1, annStage2, annStage3, renameAnnValue, renameStmt, renameExpr, renameExprList, EI, ELI, hmt]
        | subscript a2 b2 => simp [renameAnnAssign, annStage1, annStage2, annStage3, renameAnnValue, renameStmt, renameExpr, renameExprList, EI, ELI, hmt]
        | tuple es2 => simp [renameAnnAssign, annStage1, annStage2, annStage3, renameAnnValue, renameStmt, renameExpr, renameExprList, EI, ELI, hmt]
        | attr a2 fld2 => simp [renameAnnAssign, annStage1, annStage2, annStage3, renameAnnValue, renameStmt, renameExpr, renameExprList, EI, ELI, hmt]
    | call f as =>
      rcases v with _ | e
      · simp [renameAnnAssign, annStage1, annStage2, annStage3, renameAnnValue, renameStmt, renameExpr, renameExprList, EI, ELI, hmt]
      · cases e with
        | name w =>
          cases hw : ns.contains w with
          | true =>
            have hmw : w ∈ ns := by simpa using hw
            have hfw : renName w ∉ ns := by
              simpa using contains_renName_false ns hns w hw
            simp [renameAnnAssign, annStage1, annStage2, annStage3, renameAnnValue, renameStmt, renameExpr, renameExprList, EI, ELI, hmt, hmw, hfw]
          | false =>
            have hmw : w ∉ ns := by simpa using hw
            simp [renameAnnAssign, annStage1, annStage2, annStage3, renameAnnValue, renameStmt, renameExpr, renameExprList, EI, ELI, hmt, hmw]
        | const cv2 => simp [renameAnnAssign, annStage1, annStage2, annStage3, renameAnnValue, renameStmt, renameExpr, renameExprList, EI, ELI, hmt]
        | call f2 as2 => simp [renameAnnAssign, annStage1, annStage2, annStage3, renameAnnValue, renameStmt, renameExpr, renameExprList, EI, ELI, hmt]
        | subscript a2 b2 => simp [renameAnnAssign, annStage1, annStage2, annStage3, renameAnnValue, renameStmt, renameExpr, renameExprList, EI, ELI, hmt]
        | tuple es2 => simp [renameAnnAssign, annStage1, annStage2, annStage3, renameAnnValue, renameStmt, renameExpr, renameExprList, EI, ELI, hmt]
        | attr a2 fld2 => simp [renameAnnAssign, annStage1, annStage2, annStage3, renameAnnValue, renameStmt, renameExpr, renameExprList, EI, ELI, hmt]
    | subscript a b =>
      rcases v with _ | e
      · simp [renameAnnAssign, annStage1, annStage2, annStage3, renameAnnValue, renameStmt, renameExpr, renameExprList, EI, ELI, hmt]
      · cases e with
        | name w =>
          cases hw : ns.contains w with
          | true =>
            have hmw : w ∈ ns := by simpa using hw
            have hfw : renName w ∉ ns := by
              simpa using contains_renName_false ns hns w hw
            simp [renameAnnAssign, annStage1, annStage2, annStage3, renameAnnValue, renameStmt, renameExpr, renameExprList, EI, ELI, hmt, hmw, hfw]
          | false =>
            have hmw : w ∉ ns := by simpa using hw
            simp [renameAnnAssign, annStage1, annStage2, annStage3, renameAnnValue, renameStmt, renameExpr, renameExprList, EI, ELI, hmt, hmw]
        | const cv2 => simp [renameAnnAssign, annStage1, annStage2, annStage3, renameAnnValue, renameStmt, renameExpr, renameExprList, EI, ELI, hmt]
        | call f2 as2 => simp [renameAnnAssign, annStage1, annStage2, annStage3, renameAnnValue, renameStmt, renameExpr, renameExprList, EI, ELI, hmt]
        | subscript a2 b2 => simp [renameAnnAssign, annStage1, annStage2, annStage3, renameAnnValue, renameStmt, renameExpr, renameExprList, EI, ELI, hmt]
        | tuple es2 => simp [renameAnnAssign, annStage1, annStage2, annStage3, renameAnnValue, renameStmt, renameExpr, renameExprList, EI, ELI, hmt]
        | attr a2 fld2 => simp [renameAnnAssign, annStage1, annStage2, annStage3, renameAnnValue, renameStmt, renameExpr, renameExprList, EI, ELI, hmt]
    | tuple es =>
      rcases v with _ | e
      · simp [renameAnnAssign, annStage1, annStage2, annStage3, renameAnnValue, renameStmt, renameExpr, renameExprList, EI, ELI, hmt]
      · cases e with
        | name w =>
          cases hw : ns.contains w with
          | true =>
            have hmw : w ∈ ns := by simpa using hw
            have hfw : renName w ∉ ns := by
              simpa using contains_renName_false ns hns w hw
            simp [renameAnnAssign, annStage1, annStage2, annStage3, renameAnnValue, renameStmt, renameExpr, renameExprList, EI, ELI, hmt, hmw, hfw]
          | false =>
            have hmw : w ∉ ns := by simpa using hw
            simp [renameAnnAssign, annStage1, annStage2, annStage3, renameAnnValue, renameStmt, renameExpr, renameExprList, EI, ELI, hmt, hmw]
        | const cv2 => simp [renameAnnAssign, annStage1, annStage2, annStage3, renameAnnValue, renameStmt, renameExpr, renameExprList, EI, ELI, hmt]
        | call f2 as2 => simp [renameAnnAssign, annStage1, annStage2, annStage3, renameAnnValue, renameStmt, renameExpr, renameExprList, EI, ELI, hmt]
        | subscript a2 b2 => simp [renameAnnAssign, annStage1, annStage2, annStage3, renameAnnValue, renameStmt, renameExpr, renameExprList, EI, ELI, hmt]
        | tuple es2 => simp [renameAnnAssign, annStage1, annStage2, annStage3, renameAnnValue, renameStmt, renameExpr, renameExprList, EI, ELI, hmt]
        | attr a2 fld2 => simp [renameAnnAssign, annStage1, annStage2, annStage3, renameAnnValue, renameStmt, renameExpr, renameExprList, EI, ELI, hmt]
    | attr a fld =>
      rcases v with _ | e
      · simp [renameAnnAssign, annStage1, annStage2, annStage3, renameAnnValue, renameStmt, renameExpr, renameExprList, EI, ELI, hmt]
      · cases e with
        | name w =>
          cases hw : ns.contains w with
          | true =>
            have hmw : w ∈ ns := by simpa using hw
            have hfw : renName w ∉ ns := by
              simpa using contains_renName_false ns hns w hw
            simp [renameAnnAssign, annStage1, annStage2, annStage3, renameAnnValue, renameStmt, renameExpr, renameExprList, EI, ELI, hmt, hmw, hfw]
          | false =>
            have hmw : w ∉ ns := by simpa using hw
            simp [renameAnnAssign, annStage1, annStage2, annStage3, renameAnnValue, renameStmt, renameExpr, renameExprList, EI, ELI, hmt, hmw]
        | const cv2 => simp [renameAnnAssign, annStage1, annStage2, annStage3, renameAnnValue, renameStmt, renameExpr, renameExprList, EI, ELI, hmt]
        | call f2 as2 => simp [renameAnnAssign, annStage1, annStage2, annStage3, renameAnnValue, renameStmt, renameExpr, renameExprList, EI, ELI, hmt]
        | subscript a2 b2 => simp [renameAnnAssign, annStage1, annStage2, annStage3, renameAnnValue, renameStmt, renameExpr, renameExprList, EI, ELI, hmt]
        | tuple es2 => simp [renameAnnAssign, annStage1, annStage2, annStage3, renameAnnValue, renameStmt, renameExpr, renameExprList, EI, ELI, hmt]
        | attr a2 fld2 => simp [renameAnnAssign, annStage1, annStage2, annStage3, renameAnnValue, renameStmt, renameExpr, renameExprList, EI, ELI, hmt]

theorem renameOptExpr_idem (ns : List String)
    (hns : ns.all (fun n => !(ns.contains (renName n))) = true) (o : Option Expr) :
    (o.map (renameExpr ns)).map (renameExpr ns) = o.map (renameExpr ns) := by
  rcases o with _ | e
  · rfl
  · simp [renameExpr_idem ns hns e]

theorem renameArg_idem (ns : List String)
    (hns : ns.all (fun n => !(ns.contains (renName n))) = true) (a : Arg) :
    renameArg ns (renameArg ns a) = renameArg ns a := by
  obtain ⟨an, anno⟩ := a
  simp [renameArg, renameOptExpr_idem ns hns anno]

theorem renameArgList_idem (ns : List String)
    (hns : ns.all (fun n => !(ns.contains (renName n))) = true) (l : List Arg) :
    (l.map (renameArg ns)).map (renameArg ns) = l.map (renameArg ns) := by
  induction l with
  | nil => rfl
  | cons a l ih => simp [renameArg_idem ns hns a, ih]

theorem renameArguments_idem (ns : List String)
    (hns : ns.all (fun n => !(ns.contains (renName n))) = true) (a : Arguments) :
    renameArguments ns (renameArguments ns a) = renameArguments ns a := by
  obtain ⟨p, q, k⟩ := a
  simp [renameArguments, renameArgList_idem ns hns]

theorem renameTypeVarNode_idem (ns : List String)
    (hns : ns.all (fun n => !(ns.contains (renName n))) = true) (tv : TypeVarNode) :
    renameTypeVarNode ns (renameTypeVarNode ns tv) = renameTypeVarNode ns tv := by
  obtain ⟨nm, bnd⟩ := tv
  have hbnd := renameOptExpr_idem ns hns bnd
  cases hx : ns.contains nm with
  | false =>
    have hm : nm ∉ ns := by simpa using hx
    simp [renameTypeVarNode, hm, hbnd]
  | true =>
    have hm : nm ∈ ns := by simpa using hx
    have hfresh : renName nm ∉ ns := by simpa using contains_renName_false ns hns nm hx
    simp [renameTypeVarNode, hm, hfresh, hbnd]

theorem renameTypeVarNodeList_idem (ns : List String)
    (hns : ns.all (fun n => !(ns.contains (renName n))) = true) (l : List TypeVarNode) :
    (l.map (renameTypeVarNode ns)).map (renameTypeVarNode ns) = l.map (renameTypeVarNode ns) := by
  induction l with
  | nil => rfl
  | cons tv l ih => simp [renameTypeVarNode_idem ns hns tv, ih]

mutual

theorem renameStmt_idem (ns : List String)
    (hns : ns.all (fun n => !(ns.contains (renName n))) = true) :
    (s : Stmt) → renameStmt ns (renameStmt ns s) = renameStmt ns s
  | .importStmt => rfl
  | .functionDef n a bd dec r tc => by
      simp only [renameStmt]
      rw [renameArguments_idem ns hns a, renameStmtList_idem ns hns bd,
        renameExprList_idem ns hns dec, renameOptExpr_idem ns hns r]
  | .assign ts v => by
      simp only [renameStmt]
      rw [renameExprList_idem ns hns ts, renameExpr_idem ns hns v]
  | .classDef n bs bd dec tps => by
      simp only [renameStmt]
      rw [renameExprList_idem ns hns bs, renameStmtList_idem ns hns bd,
        renameExprList_idem ns hns dec, renameTypeVarNodeList_idem ns hns tps]
  | .exprStmt v => by
      simp only [renameStmt]
      rw [renameExpr_idem ns hns v]
  | .returnStmt v => by
      simp only [renameStmt]
      rw [renameOptExpr_idem ns hns v]
  | .passStmt => rfl
  | .annAssign t ann v => renameAnnAssign_idem ns hns t ann v
  | .otherStmt => rfl

theorem renameStmtList_idem (ns : List String)
    (hns : ns.all (fun n => !(ns.contains (renName n))) = true) :
    (l : List Stmt) → renameStmtList ns (renameStmtList ns l) = renameStmtList ns l
  | [] => rfl
  | s :: ss => by
      simp only [renameStmtList]
      rw [renameStmt_idem ns hns s, renameStmtList_idem ns hns ss]

end

/-- C6 (amended): the Type-Parameter Renamer is idempotent on every tree
provided no registered name's display form (`"T"` + capitalized name) is
itself a registered name — the condition the original claim asserts
unconditionally, which a registry containing both `"abc"` and `"TAbc"`
violates (see the counterexample). -/
theorem renamer_idempotent (ns : List String)
    (hns : ns.all (fun n => !(ns.contains (renName n))) = true)
    (tree : List Stmt) :
    renameStmtList ns (renameStmtList ns tree) = renameStmtList ns tree :=
  renameStmtList_idem ns hns tree

/-- A plausible output tree mentioning the registered name `array`. -/
def exTree6 : List Stmt :=
  [Stmt.classDef "C" [Expr.name "Protocol"]
    [Stmt.exprStmt (Expr.name "array"), Stmt.annAssign "x" (Expr.name "array") none]
    [Expr.name "runtime_checkable"] []]

/-- C6 amended witness: with registry `["array"]` (whose display form
`TArray` is not registered) a second renaming pass changes nothing. -/
theorem renamer_idempotent_witness :
    ((["array"] : List String).all
      (fun n => !((["array"] : List String).contains (renName n))) = true) ∧
    renameStmtList ["array"] (renameStmtList ["array"] exTree6) =
      renameStmtList ["array"] exTree6 :=
  ⟨rfl, renamer_idempotent ["array"] rfl exTree6⟩

/-- The registry of the C6 counterexample: the display form of `abc` is
`TAbc`, which is itself registered. -/
def cexRenNs : List String := ["abc", "TAbc"]

/-- The tree of the C6 counterexample: a class member mentioning `abc`. -/
def cexRenTree : List Stmt :=
  [Stmt.classDef "C" [Expr.name "Protocol"] [Stmt.exprStmt (Expr.name "abc")]
    [Expr.name "runtime_checkable"] []]

/-- C6 counterexample: with the reachable registry `{abc, TAbc}` (second
conjunct: the TypeVar scan produces it from a type-definition module), the
first pass rewrites `abc` to `TAbc`, which still matches the registry, so a
second pass rewrites it again to `TTabc`: running the renamer twice differs
from running it once. -/
theorem renamer_idempotence_counterexample :
    (renameStmtList cexRenNs (renameStmtList cexRenNs cexRenTree) ≠
      renameStmtList cexRenNs cexRenTree) ∧
    computeTypevars
      [Stmt.assign [Expr.name "abc"]
        (Expr.call (Expr.name "TypeVar") [Expr.const (ConstVal.str "abc")]),
       Stmt.assign [Expr.name "TAbc"]
        (Expr.call (Expr.name "TypeVar") [Expr.const (ConstVal.str "TAbc")])]
      = .ok [⟨"abc", none⟩, ⟨"TAbc", none⟩] :=
  ⟨fun h => absurd (congrArg unparseStmtList h) (by decide), rfl⟩

theorem renameStmtList_append (ns : List String) (a b : List Stmt) :
    renameStmtList ns (a ++ b) = renameStmtList ns a ++ renameStmtList ns b := by
  induction a with
  | nil => rfl
  | cons s rest ih => simp [renameStmtList, ih]

theorem fieldTargets_renameStmtList (ns : List String) (l : List Stmt) :
    fieldTargets (renameStmtList ns l) = fieldTargets l := by
  induction l with
  | nil => rfl
  | cons s rest ih =>
    have step : renameStmtList ns (s :: rest) = renameStmt ns s :: renameStmtList ns rest := rfl
    rw [step]
    cases s <;>
      simp only [fieldTargets, List.filterMap_cons, renameStmt, renameAnnAssign] <;>
      first
      | exact ih
      | exact congrArg (List.cons _) ih

/-- The registry as `generate` builds it from the scanned records. -/
def registryOf (tvs0 : List TypeVarInfo) : List TypeVarInfo :=
  sortByName (tvs0 ++ injectedTypevars)

/-- The attribute record synthesized for a contributing optional submodule:
the submodule name typed as its aggregate interface's parameterized name. -/
def optionalRecord (p : String × List ModuleAttributes) : ModuleAttributes :=
  ModuleAttributes.mk p.1
    (_attributes_to_protocol (upperFirst p.1 ++ "Namespace") p.2).nameExpr none []

/-- The record list the Namespace Composer folds into `ArrayNamespace`:
all records of non-optional modules in encounter order, then one synthesized
record per contributing optional submodule. -/
def mainAttributesOf (ma : List (String × List ModuleAttributes)) : List ModuleAttributes :=
  (ma.filter (fun p => !OPTIONAL_SUBMODULES.contains p.1)).flatMap (fun p => p.2)
    ++ (ma.filter (fun p => OPTIONAL_SUBMODULES.contains p.1)).map optionalRecord

/-- The top-level aggregate interface before renaming. -/
def arrayNamespaceOf (ma : List (String × List ModuleAttributes)) : Stmt :=
  (_attributes_to_protocol "ArrayNamespace" (mainAttributesOf ma)).stmt.toStmt

theorem fieldTargets_attributes (nm : String) (attrs : List ModuleAttributes) :
    fieldTargets ((_attributes_to_protocol nm attrs).stmt.body) =
      attrs.map (fun a => a.name) := by
  show fieldTargets (attrs.flatMap _) = _
  induction attrs with
  | nil => rfl
  | cons a rest ih =>
    rcases a with ⟨an, ty, doc, tvu⟩
    rcases doc with _ | d <;>
      simp only [List.flatMap_cons, List.cons_append, List.nil_append, fieldTargets,
        List.filterMap_cons, List.map_cons] <;>
      exact congrArg (an :: ·) ih

theorem map_name_flatMap (l : List (String × List ModuleAttributes)) :
    ((l.flatMap (fun p => p.2)).map (fun a => a.name)) =
      l.flatMap (fun p => p.2.map (fun a => a.name)) := by
  induction l with
  | nil => rfl
  | cons p rest ih => simp [List.flatMap_cons, ih]

/-- C1: on a mapping with distinct module names, whenever the pipeline stages
succeed the output tree ends with the single top-level interface named
`ArrayNamespace`, whose fields are exactly one per attribute record of the
non-optional modules (in their encounter order) followed by exactly one per
contributing optional submodule — no duplicates, no omissions. -/
theorem namespace_completeness (m : List (String × List Stmt)) (tb : List Stmt)
    (mRest : List (String × List Stmt)) (tvs0 : List TypeVarInfo)
    (ma : List (String × List ModuleAttributes)) (outFns : List Stmt)
    (_hkeys : (m.map Prod.fst).Nodup)
    (h1 : lookupMod m "_types" = some tb)
    (h2 : delMod m "__init__" = .ok mRest)
    (h3 : computeTypevars tb = .ok tvs0)
    (h4 : processModules (registryOf tvs0) mRest = .ok (ma, outFns)) :
    ∃ pre, generate m = .ok (pre ++
        [renameStmt ((registryOf tvs0).map (fun t => t.name)) (arrayNamespaceOf ma)]) ∧
      stmtClassName (renameStmt ((registryOf tvs0).map (fun t => t.name))
        (arrayNamespaceOf ma)) = some "ArrayNamespace" ∧
      fieldTargets (stmtMembers (renameStmt ((registryOf tvs0).map (fun t => t.name))
          (arrayNamespaceOf ma))) =
        ((ma.filter (fun p => !OPTIONAL_SUBMODULES.contains p.1)).flatMap
            (fun p => p.2.map (fun a => a.name)))
          ++ (ma.filter (fun p => OPTIONAL_SUBMODULES.contains p.1)).map (fun p => p.1) := by
  refine ⟨renameStmtList ((registryOf tvs0).map (fun t => t.name))
      (outFns ++ (ma.filter (fun p => OPTIONAL_SUBMODULES.contains p.1)).map
        (fun p => (_attributes_to_protocol (upperFirst p.1 ++ "Namespace") p.2).stmt.toStmt)),
    ?_, ?_, ?_⟩
  · have h4' : processModules (sortByName (tvs0 ++ injectedTypevars)) mRest =
        .ok (ma, outFns) := h4
    simp only [generate, h1, h2, h3, h4', Bind.bind, Except.bind]
    rw [show ([renameStmt ((registryOf tvs0).map (fun t => t.name)) (arrayNamespaceOf ma)] : List Stmt)
        = renameStmtList ((registryOf tvs0).map (fun t => t.name)) [arrayNamespaceOf ma] from rfl,
      ← renameStmtList_append]
    simp only [List.map_map, List.append_assoc]
    rfl
  · rfl
  · have hm : stmtMembers (renameStmt ((registryOf tvs0).map (fun t => t.name))
        (arrayNamespaceOf ma)) =
        renameStmtList ((registryOf tvs0).map (fun t => t.name))
          ((_attributes_to_protocol "ArrayNamespace" (mainAttributesOf ma)).stmt.body) := rfl
    rw [hm, fieldTargets_renameStmtList, fieldTargets_attributes, mainAttributesOf,
      List.map_append, map_name_flatMap, List.map_map]
    rfl

/-- Input mapping for the C1 witness: a registry module, one non-optional
module with a function and a constant, and a contributing optional `fft`
module. -/
def exMapC1 : List (String × List Stmt) :=
  [("_types",
    [Stmt.assign [Expr.name "T"] (Expr.call (Expr.name "TypeVar") [Expr.const (ConstVal.str "T")])]),
   ("__init__", []),
   ("core",
    [Stmt.functionDef "add" ⟨[⟨"x", some (Expr.name "T")⟩], [], []⟩
      [Stmt.returnStmt (some (Expr.name "x"))] [] (some (Expr.name "T")) none,
     Stmt.assign [Expr.name "pi"] (Expr.const (ConstVal.intV 3))]),
   ("fft",
    [Stmt.functionDef "fftfn" ⟨[⟨"x", none⟩], [], []⟩ [Stmt.passStmt] [] none none])]

/-- `exMapC1` with the initializer module discarded. -/
def exC1Rest : List (String × List Stmt) :=
  [("_types",
    [Stmt.assign [Expr.name "T"] (Expr.call (Expr.name "TypeVar") [Expr.const (ConstVal.str "T")])]),
   ("core",
    [Stmt.functionDef "add" ⟨[⟨"x", some (Expr.name "T")⟩], [], []⟩
      [Stmt.returnStmt (some (Expr.name "x"))] [] (some (Expr.name "T")) none,
     Stmt.assign [Expr.name "pi"] (Expr.const (ConstVal.intV 3))]),
   ("fft",
    [Stmt.functionDef "fftfn" ⟨[⟨"x", none⟩], [], []⟩ [Stmt.passStmt] [] none none])]

/-- The aggregated per-module records for `exMapC1`. -/
def exC1MA : List (String × List ModuleAttributes) :=
  match processModules (registryOf [⟨"T", none⟩]) exC1Rest with
  | .ok r => r.1
  | .error _ => []

/-- The function/class interfaces emitted for `exMapC1`. -/
def exC1Outs : List Stmt :=
  match processModules (registryOf [⟨"T", none⟩]) exC1Rest with
  | .ok r => r.2
  | .error _ => []

/-- C1 witness: on `exMapC1` the output tree ends with `ArrayNamespace`,
whose fields are `add`, `pi` (the core records in order) followed by `fft`
(the contributing optional submodule). -/
theorem namespace_completeness_witness :
    ∃ pre, generate exMapC1 = .ok (pre ++
        [renameStmt ((registryOf [⟨"T", none⟩]).map (fun t => t.name)) (arrayNamespaceOf exC1MA)]) ∧
      stmtClassName (renameStmt ((registryOf [⟨"T", none⟩]).map (fun t => t.name))
        (arrayNamespaceOf exC1MA)) = some "ArrayNamespace" ∧
      fieldTargets (stmtMembers (renameStmt ((registryOf [⟨"T", none⟩]).map (fun t => t.name))
          (arrayNamespaceOf exC1MA))) =
        ((exC1MA.filter (fun p => !OPTIONAL_SUBMODULES.contains p.1)).flatMap
            (fun p => p.2.map (fun a => a.name)))
          ++ (exC1MA.filter (fun p => OPTIONAL_SUBMODULES.contains p.1)).map (fun p => p.1) :=
  namespace_completeness exMapC1
    [Stmt.assign [Expr.name "T"] (Expr.call (Expr.name "TypeVar") [Expr.const (ConstVal.str "T")])]
    exC1Rest [⟨"T", none⟩] exC1MA exC1Outs (by decide) rfl rfl rfl rfl

/-- Class→Interface closure: a registry entry's name is in the declared
type-parameter list iff it occurs as a substring of the full rendering of
the class as it stood on entry (its name, decorators and original bases
included — hence a declared parameter need not occur in the members). -/
theorem class_interface_typeParam_closure (cd : ClassDefData) (tvs : List TypeVarInfo)
    (t : TypeVarInfo) (pr : ProtocolData) (cd' : ClassDefData) (ht : t ∈ tvs)
    (hok : _class_to_protocol cd tvs = .ok (pr, cd')) :
    t.name ∈ stmtTypeParamNames pr.stmt.toStmt ↔
      containsSub (unparseStmt cd.toStmt) t.name = true := by
  have hparams : pr.stmt.typeParams =
      (tvs.filter (fun tv => containsSub (unparseStmt cd.toStmt) tv.name)).map tvNode := by
    cases hm : cd.body.mapM fixClassMember with
    | error e =>
      rw [_class_to_protocol, hm] at hok
      simp [Bind.bind, Except.bind] at hok
    | ok nb =>
      rw [_class_to_protocol, hm] at hok
      simp only [Bind.bind, Except.bind, Except.ok.injEq, Prod.mk.injEq] at hok
      rw [← hok.1]
  have hnames : stmtTypeParamNames pr.stmt.toStmt =
      pr.stmt.typeParams.map (fun tv => tv.name) := rfl
  rw [hnames, hparams, List.map_map]
  constructor
  · intro hmem
    obtain ⟨t', ht', heq⟩ := List.mem_map.mp hmem
    have hf := List.mem_filter.mp ht'
    have hn : t'.name = t.name := heq
    rw [← hn]
    simpa using hf.2
  · intro hc
    exact List.mem_map.mpr ⟨t, List.mem_filter.mpr ⟨ht, by simpa using hc⟩, rfl⟩

/-- Attribute-list→Interface parameter names: a name is declared iff some
member record uses a type variable of that name (the un-filtered union). -/
theorem attrlist_typeParam_names (nm : String) (attrs : List ModuleAttributes) (x : String) :
    x ∈ stmtTypeParamNames ((_attributes_to_protocol nm attrs).stmt.toStmt) ↔
      ∃ a ∈ attrs, ∃ tv ∈ a.typevars_used, tv.name = x := by
  have hset : ∀ tv : TypeVarInfo,
      tv ∈ sortByName ((attrs.flatMap (fun a => a.typevars_used)).dedup) ↔
        ∃ a ∈ attrs, tv ∈ a.typevars_used := by
    intro tv
    rw [mem_sortByName, List.mem_dedup, List.mem_flatMap]
  have h : stmtTypeParamNames ((_attributes_to_protocol nm attrs).stmt.toStmt) =
      (sortByName ((attrs.flatMap (fun a => a.typevars_used)).dedup)).map
        (fun tv => tv.name) := by
    show ((sortByName _).map tvNode).map (fun tv => tv.name) = _
    rw [List.map_map]
    rfl
  rw [h]
  constructor
  · intro hx
    obtain ⟨tv, htv, heq⟩ := List.mem_map.mp hx
    obtain ⟨a, ha, hmem⟩ := (hset tv).mp htv
    exact ⟨a, ha, tv, hmem, heq⟩
  · rintro ⟨a, ha, tv, htv, rfl⟩
    exact List.mem_map.mpr ⟨tv, (hset tv).mpr ⟨a, ha, htv⟩, rfl⟩

/-- C2 (amended): for every generated interface, the declared type-parameter
list is exactly determined by its transformer's own textual rule — for
Function→Interface products, a registry entry is declared iff its name occurs
as a substring of the rendered transformed parameter list concatenated with
the rendered return annotation; for Class→Interface products, iff its name
occurs as a substring of the full rendering of the class as it stood on
entry; for attribute-list interfaces, iff some member record uses a type
variable of that name.  (The original members-based closure fails in both
directions — see the counterexample: the function filter ignores the
docstring member, and the class filter sees entry text, such as the class's
own name, that the members never reference.) -/
theorem type_param_closure_by_transformer :
    (∀ (f : FunctionDefData) (tvs : List TypeVarInfo) (t : TypeVarInfo), t ∈ tvs →
      (t.name ∈ stmtTypeParamNames ((_function_to_protocol f tvs).1.stmt.toStmt) ↔
        containsSub (sigTextOf f) t.name = true)) ∧
    (∀ (cd : ClassDefData) (tvs : List TypeVarInfo) (t : TypeVarInfo)
        (pr : ProtocolData) (cd' : ClassDefData), t ∈ tvs →
      _class_to_protocol cd tvs = .ok (pr, cd') →
      (t.name ∈ stmtTypeParamNames pr.stmt.toStmt ↔
        containsSub (unparseStmt cd.toStmt) t.name = true)) ∧
    (∀ (nm : String) (attrs : List ModuleAttributes) (x : String),
      x ∈ stmtTypeParamNames ((_attributes_to_protocol nm attrs).stmt.toStmt) ↔
        ∃ a ∈ attrs, ∃ tv ∈ a.typevars_used, tv.name = x) :=
  ⟨fun f tvs t ht => function_interface_typeParam_closure f tvs t ht,
   fun cd tvs t pr cd' ht hok => class_interface_typeParam_closure cd tvs t pr cd' ht hok,
   fun nm attrs x => attrlist_typeParam_names nm attrs x⟩

/-- The function of the C2 amended witness: `add(x: T, y: T) -> T`. -/
def exAddF : FunctionDefData :=
  ⟨"add", ⟨[⟨"x", some (Expr.name "T")⟩, ⟨"y", some (Expr.name "T")⟩], [], []⟩,
    [Stmt.returnStmt (some (Expr.name "x"))], [], some (Expr.name "T"), none⟩

/-- The class of the C2 amended witness: `class C(array): pass`. -/
def exC2Class : ClassDefData := ⟨"C", [Expr.name "array"], [Stmt.passStmt], [], []⟩

/-- Its registry. -/
def exC2ClassTvs : List TypeVarInfo := [⟨"array", some "_array"⟩]

/-- The (successful) result of transforming `exC2Class`. -/
def exC2ClassRes : ProtocolData × ClassDefData :=
  match _class_to_protocol exC2Class exC2ClassTvs with
  | .ok r => r
  | .error _ => (⟨⟨"", [], [], [], []⟩, []⟩, ⟨"", [], [], [], []⟩)

/-- C2 amended witness: the three closure rules, each at a concrete input —
`T` is declared for `add(x: T, y: T) -> T`; `array` is declared for
`class C(array): pass` (it occurs in the entry rendering via the base list);
`T` is declared on an attribute-list interface whose single record uses it. -/
theorem type_param_closure_by_transformer_witness :
    ((TypeVarInfo.mk "T" none).name ∈ stmtTypeParamNames
        ((_function_to_protocol exAddF [⟨"T", none⟩]).1.stmt.toStmt) ↔
      containsSub (sigTextOf exAddF) "T" = true) ∧
    ((TypeVarInfo.mk "array" (some "_array")).name ∈
        stmtTypeParamNames exC2ClassRes.1.stmt.toStmt ↔
      containsSub (unparseStmt exC2Class.toStmt) "array" = true) ∧
    ("T" ∈ stmtTypeParamNames ((_attributes_to_protocol "NS"
        [⟨"a", Expr.name "float", none, [⟨"T", none⟩]⟩]).stmt.toStmt) ↔
      ∃ a ∈ [(⟨"a", Expr.name "float", none, [⟨"T", none⟩]⟩ : ModuleAttributes)],
        ∃ tv ∈ a.typevars_used, tv.name = "T") :=
  ⟨type_param_closure_by_transformer.1 exAddF [⟨"T", none⟩] ⟨"T", none⟩ (by decide),
   type_param_closure_by_transformer.2.1 exC2Class exC2ClassTvs ⟨"array", some "_array"⟩
     exC2ClassRes.1 exC2ClassRes.2 (by decide) rfl,
   type_param_closure_by_transformer.2.2 "NS"
     [⟨"a", Expr.name "float", none, [⟨"T", none⟩]⟩] "T"⟩
